import Mathlib

/-!
Verification development for the medusa order-edit subsystem.

The definitions below are a shallow embedding of:
- `src/packages/medusa/src/models/order-edit.ts` (the `OrderEdit` entity and
  its `loadStatus` lifecycle callback),
- the `OrderEditService` (`create`, `delete`, `decline`, `requestConfirmation`,
  `cancel`, `confirm`, `updateLineItem`, `addLineItem`, `deleteItemChange`,
  `retrieveActive`),
- `src/packages/medusa/src/api/routes/store/carts/calculate-taxes.ts` (the
  idempotency-key-guarded recovery-point runner).

Dates are modelled as `Nat` ticks (a TypeScript `Date` object is always
truthy, so a set timestamp is `Option.some`).  The persistence layer is
modelled as an explicit `DB` state (lists of rows) threaded through each
operation; fallible service methods return `Except MedusaError`.
Collaborators that the spec scopes out (adjustments, tax lines, pricing,
event-bus delivery) are not part of the tracked state; emitted events are
recorded as a list of (event name, edit id) pairs.
-/

namespace Medusa

/-- The `OrderEditStatus` enum of `order-edit.ts` (values are the wire strings). -/
inductive OrderEditStatus where
  | confirmed
  | declined
  | requested
  | created
  | canceled
deriving DecidableEq, Repr

/-- String value of each `OrderEditStatus` enum member, as in the TS source. -/
def OrderEditStatus.toStr : OrderEditStatus → String
  | .confirmed => "confirmed"
  | .declined => "declined"
  | .requested => "requested"
  | .created => "created"
  | .canceled => "canceled"

/-- The `OrderEditItemChangeType` enum. -/
inductive OrderEditItemChangeType where
  | item_add
  | item_remove
  | item_update
deriving DecidableEq, Repr

/-- The persisted columns of the `OrderEdit` entity (timestamps as `Option Nat`). -/
structure OrderEditRec where
  id : String
  order_id : String
  internal_note : Option String := none
  created_by : String
  requested_by : Option String := none
  requested_at : Option Nat := none
  confirmed_by : Option String := none
  confirmed_at : Option Nat := none
  declined_by : Option String := none
  declined_reason : Option String := none
  declined_at : Option Nat := none
  canceled_by : Option String := none
  canceled_at : Option Nat := none
deriving DecidableEq, Repr

/-- A line item: owned by an order (`order_id`) or, while being edited, by an
order edit (`order_edit_id`); clones keep a pointer to the original item. -/
structure LineItem where
  id : String
  order_id : Option String := none
  order_edit_id : Option String := none
  original_item_id : Option String := none
  quantity : Nat := 0
deriving DecidableEq, Repr

/-- The `OrderItemChange` entity (one row of the line item change ledger). -/
structure ItemChange where
  id : String
  type : OrderEditItemChangeType
  order_edit_id : String
  original_line_item_id : Option String := none
  line_item_id : Option String := none
deriving DecidableEq, Repr

/-- The persistent state threaded through the service operations: the edit
rows, the line item rows, the change ledger, the log of emitted events
(name, edit id), and a counter used to generate fresh row ids. -/
structure DB where
  edits : List OrderEditRec := []
  items : List LineItem := []
  changes : List ItemChange := []
  events : List (String × String) := []
  nextId : Nat := 0
deriving DecidableEq, Repr

/-- The `@AfterLoad` `loadStatus` callback of `order-edit.ts`: four `if`
statements assign the status in source order (requested, declined, confirmed,
canceled), each later assignment overwriting any earlier one, and `status ??
CREATED` supplies the default when no timestamp is set. -/
def loadStatus (e : OrderEditRec) : OrderEditStatus :=
  let s : Option OrderEditStatus := none
  let s := if e.requested_at.isSome then some .requested else s
  let s := if e.declined_at.isSome then some .declined else s
  let s := if e.confirmed_at.isSome then some .confirmed else s
  let s := if e.canceled_at.isSome then some .canceled else s
  s.getD .created

/-- `MedusaError.Types` members used by this service. -/
inductive MedusaErrorType where
  | NOT_FOUND
  | INVALID_DATA
  | NOT_ALLOWED
deriving DecidableEq, Repr

/-- A `MedusaError`: a type tag plus a human-readable message. -/
structure MedusaError where
  type : MedusaErrorType
  message : String
deriving DecidableEq, Repr

/-- An edit is "active" when none of the three terminal timestamps is set
(the `IsNull` filter of `retrieveActive`). -/
def isActiveEdit (e : OrderEditRec) : Bool :=
  e.confirmed_at.isNone && e.canceled_at.isNone && e.declined_at.isNone

/-- All active edits of a given order held in the state. -/
def activeEditsFor (db : DB) (orderId : String) : List OrderEditRec :=
  db.edits.filter (fun e => e.order_id == orderId && isActiveEdit e)

/-- The invariant of spec section 3: at most one active edit per order. -/
def atMostOneActive (db : DB) : Prop :=
  ∀ orderId : String, (activeEditsFor db orderId).length ≤ 1

/-- Append one emitted event (name, edit id) to the event log. -/
def emit (db : DB) (name : String) (editId : String) : DB :=
  { db with events := db.events ++ [(name, editId)] }

/-- Replace the first edit row whose id matches by applying `g` to it — the
effect of `orderEditRepo.save` on an entity retrieved by primary key and then
mutated in place. -/
def updateFirstBy : List OrderEditRec → String → (OrderEditRec → OrderEditRec) →
    List OrderEditRec
  | [], _, _ => []
  | x :: xs, editId, g =>
      if x.id == editId then g x :: xs else x :: updateFirstBy xs editId g

namespace OrderEditService

/-- The `OrderEditService.Events` names. -/
def Events.CREATED : String := "order-edit.created"

/-- The `order-edit.updated` event name. -/
def Events.UPDATED : String := "order-edit.updated"

/-- The `order-edit.declined` event name. -/
def Events.DECLINED : String := "order-edit.declined"

/-- The `order-edit.requested` event name. -/
def Events.REQUESTED : String := "order-edit.requested"

/-- The `order-edit.canceled` event name. -/
def Events.CANCELED : String := "order-edit.canceled"

/-- The `order-edit.confirmed` event name. -/
def Events.CONFIRMED : String := "order-edit.confirmed"

/-- `OrderEditService.retrieve`: find the edit by id or throw `NOT_FOUND`. -/
def retrieve (db : DB) (orderEditId : String) : Except MedusaError OrderEditRec :=
  match db.edits.find? (fun e => e.id == orderEditId) with
  | none => .error ⟨.NOT_FOUND,
      "Order edit with id " ++ orderEditId ++ " was not found"⟩
  | some e => .ok e

/-- `OrderEditService.retrieveActive`: first edit of the order with
`confirmed_at`, `canceled_at` and `declined_at` all null. -/
def retrieveActive (db : DB) (orderId : String) : Option OrderEditRec :=
  db.edits.find? (fun e => e.order_id == orderId && isActiveEdit e)

/-- The active-edit existence check performed at the top of
`OrderEditService.create` (the guard of the check-then-insert pattern). -/
def createActiveCheck (db : DB) (orderId : String) : Option MedusaError :=
  match retrieveActive db orderId with
  | some _ => some ⟨.INVALID_DATA,
      "An active order edit already exists for the order " ++ orderId⟩
  | none => none

/-- The insert half of `OrderEditService.create`: save the new edit row, clone
every current line item of the order into the edit (`cloneTo` gives each
clone a fresh id, leaves `order_id` unset and records `original_item_id`),
and emit the CREATED event. -/
def createCommit (db : DB) (orderId : String) (note : Option String)
    (loggedInUserId : String) : OrderEditRec × DB :=
  let editId := "oe_" ++ toString db.nextId
  let orderEdit : OrderEditRec :=
    { id := editId, order_id := orderId, internal_note := note,
      created_by := loggedInUserId }
  let orderLineItems := db.items.filter (fun i => i.order_id == some orderId)
  let clones := orderLineItems.enum.map (fun p =>
    { id := "item_" ++ toString (db.nextId + 1 + p.1),
      order_id := none,
      order_edit_id := some editId,
      original_item_id := some p.2.id,
      quantity := p.2.quantity : LineItem })
  let db1 : DB :=
    { db with edits := db.edits ++ [orderEdit],
              items := db.items ++ clones,
              nextId := db.nextId + 1 + orderLineItems.length }
  (orderEdit, emit db1 Events.CREATED editId)

/-- `OrderEditService.create`: fail with `InvalidData` when an active edit
already exists for the order, otherwise insert the edit and its clones. -/
def create (db : DB) (orderId : String) (note : Option String)
    (loggedInUserId : String) : Except MedusaError (OrderEditRec × DB) :=
  match createActiveCheck db orderId with
  | some err => .error err
  | none => .ok (createCommit db orderId note loggedInUserId)

/-- `deleteClonedItems`: remove every line item owned by the edit (their tax
lines and adjustments live with collaborators outside the tracked state). -/
def deleteClonedItems (db : DB) (orderEditId : String) : DB :=
  { db with items :=
      db.items.filter (fun i => !(i.order_edit_id == some orderEditId)) }

/-- `OrderEditService.delete`: no-op when the edit does not exist; throw
`NOT_ALLOWED` unless the status is CREATED; otherwise delete the cloned
items and remove the edit row (its changes cascade with it). -/
def delete (db : DB) (orderEditId : String) : Except MedusaError DB :=
  match retrieve db orderEditId with
  | .error _ => .ok db
  | .ok edit =>
      if loadStatus edit ≠ .created then
        .error ⟨.NOT_ALLOWED,
          "Cannot delete order edit with status " ++ (loadStatus edit).toStr⟩
      else
        let db1 := deleteClonedItems db orderEditId
        .ok { db1 with
                edits := db1.edits.filter (fun e => !(e.id == orderEditId)),
                changes :=
                  db1.changes.filter (fun c => !(c.order_edit_id == orderEditId)) }

/-- `OrderEditService.decline`: idempotent on DECLINED; throw `NOT_ALLOWED`
unless the status is REQUESTED; otherwise set the declined fields, save, and
emit the DECLINED event. -/
def decline (db : DB) (orderEditId : String) (declinedReason : Option String)
    (loggedInUserId : Option String) (now : Nat) :
    Except MedusaError (OrderEditRec × DB) :=
  match retrieve db orderEditId with
  | .error err => .error err
  | .ok orderEdit =>
      if loadStatus orderEdit = .declined then .ok (orderEdit, db)
      else if loadStatus orderEdit ≠ .requested then
        .error ⟨.NOT_ALLOWED,
          "Cannot decline an order edit with status " ++
            (loadStatus orderEdit).toStr ++ "."⟩
      else
        let g := fun e : OrderEditRec =>
          { e with declined_at := some now, declined_by := loggedInUserId,
                   declined_reason := declinedReason }
        let db' := { db with edits := updateFirstBy db.edits orderEditId g }
        .ok (g orderEdit, emit db' Events.DECLINED orderEditId)

/-- The change rows owned by an edit (the `changes` relation loaded by
`retrieve(orderEditId, { relations: ["changes"] })`). -/
def changesOf (db : DB) (orderEditId : String) : List ItemChange :=
  db.changes.filter (fun c => c.order_edit_id == orderEditId)

/-- `OrderEditService.requestConfirmation`: throw `InvalidData` when the edit
has no changes; return the edit unchanged when `requested_at` is already
set; otherwise set `requested_at`/`requested_by`, save, and emit the
REQUESTED event. -/
def requestConfirmation (db : DB) (orderEditId : String)
    (loggedInUserId : Option String) (now : Nat) :
    Except MedusaError (OrderEditRec × DB) :=
  match retrieve db orderEditId with
  | .error err => .error err
  | .ok orderEdit =>
      if (changesOf db orderEditId).isEmpty then
        .error ⟨.INVALID_DATA,
          "Cannot request a confirmation on an edit with no changes"⟩
      else if orderEdit.requested_at.isSome then .ok (orderEdit, db)
      else
        let g := fun e : OrderEditRec =>
          { e with requested_at := some now, requested_by := loggedInUserId }
        let db' := { db with edits := updateFirstBy db.edits orderEditId g }
        .ok (g orderEdit, emit db' Events.REQUESTED orderEditId)

/-- `OrderEditService.cancel`: idempotent on CANCELED; throw `NOT_ALLOWED`
when CONFIRMED or DECLINED; otherwise set the canceled fields, save, and
emit the CANCELED event. -/
def cancel (db : DB) (orderEditId : String) (loggedInUserId : Option String)
    (now : Nat) : Except MedusaError (OrderEditRec × DB) :=
  match retrieve db orderEditId with
  | .error err => .error err
  | .ok orderEdit =>
      if loadStatus orderEdit = .canceled then .ok (orderEdit, db)
      else if loadStatus orderEdit = .confirmed ∨ loadStatus orderEdit = .declined then
        .error ⟨.NOT_ALLOWED,
          "Cannot cancel order edit with status " ++
            (loadStatus orderEdit).toStr⟩
      else
        let g := fun e : OrderEditRec =>
          { e with canceled_at := some now, canceled_by := loggedInUserId }
        let db' := { db with edits := updateFirstBy db.edits orderEditId g }
        .ok (g orderEdit, emit db' Events.CANCELED orderEditId)

/-- First half of the `Promise.all` in `confirm` (source order):
`lineItemService.update({ order_id }, { order_id: null })` — detach every
live line item of the order. -/
def detachOrderItems (items : List LineItem) (orderId : String) : List LineItem :=
  items.map (fun i =>
    if i.order_id == some orderId then { i with order_id := none } else i)

/-- Second half of the `Promise.all` in `confirm`:
`lineItemService.update({ order_edit_id }, { order_id })` — reassign every
cloned item of the edit to the order. -/
def attachEditItems (items : List LineItem) (orderEditId : String)
    (orderId : String) : List LineItem :=
  items.map (fun i =>
    if i.order_edit_id == some orderEditId then { i with order_id := some orderId }
    else i)

/-- `OrderEditService.confirm`: throw `NOT_ALLOWED` when CANCELED or
DECLINED; return the edit unchanged when already CONFIRMED; otherwise
perform the item ownership handoff (the two bulk updates, which touch
disjoint item sets), set the confirmed fields, save, and emit the CONFIRMED
event. -/
def confirm (db : DB) (orderEditId : String) (loggedInUserId : Option String)
    (now : Nat) : Except MedusaError (OrderEditRec × DB) :=
  match retrieve db orderEditId with
  | .error err => .error err
  | .ok orderEdit =>
      if loadStatus orderEdit = .canceled ∨ loadStatus orderEdit = .declined then
        .error ⟨.NOT_ALLOWED,
          "Cannot confirm an order edit with status " ++
            (loadStatus orderEdit).toStr⟩
      else if loadStatus orderEdit = .confirmed then .ok (orderEdit, db)
      else
        let items1 := detachOrderItems db.items orderEdit.order_id
        let items2 := attachEditItems items1 orderEditId orderEdit.order_id
        let g := fun e : OrderEditRec =>
          { e with confirmed_at := some now, confirmed_by := loggedInUserId }
        let db' := { db with items := items2,
                             edits := updateFirstBy db.edits orderEditId g }
        .ok (g orderEdit, emit db' Events.CONFIRMED orderEditId)

/-- `OrderEditService.isOrderEditActive`: not CONFIRMED, CANCELED or
DECLINED. -/
def isOrderEditActive (orderEdit : OrderEditRec) : Bool :=
  !(loadStatus orderEdit == .confirmed || loadStatus orderEdit == .canceled ||
    loadStatus orderEdit == .declined)

/-- `OrderEditService.updateLineItem`: guard that the edit is active and the
item belongs to it; reuse the most recent change referencing the line item
(`list({ line_item_id }).pop()`) or create an ITEM_UPDATE change referencing
the original item id; then set the quantity on the change's line item.
(`refreshAdjustments` only rewrites adjustment rows, which live with a
collaborator outside the tracked state.)  The `change.line_item_id!`
non-null assertion is rendered with `Option.getD`; on both branches the
field is `some itemId`. -/
def updateLineItem (db : DB) (orderEditId : String) (itemId : String)
    (quantity : Nat) : Except MedusaError DB :=
  match retrieve db orderEditId with
  | .error err => .error err
  | .ok orderEdit =>
      if !(isOrderEditActive orderEdit) then
        .error ⟨.NOT_ALLOWED,
          "Can not update an item on the order edit " ++ orderEditId ++
            " with the status " ++ (loadStatus orderEdit).toStr⟩
      else
        match db.items.find? (fun i => i.id == itemId) with
        | none => .error ⟨.NOT_FOUND,
            "Line item with id " ++ itemId ++ " was not found"⟩
        | some lineItem =>
            if !(lineItem.order_edit_id == some orderEditId) then
              .error ⟨.INVALID_DATA,
                "Invalid line item id " ++ itemId ++
                  " it does not belong to the same order edit " ++
                  orderEdit.order_id ++ "."⟩
            else
              let found :=
                (db.changes.filter
                  (fun c => c.line_item_id == some itemId)).getLast?
              let (change, db1) :=
                match found with
                | some change => (change, db)
                | none =>
                    let change : ItemChange :=
                      { id := "oic_" ++ toString db.nextId,
                        type := .item_update,
                        order_edit_id := orderEditId,
                        original_line_item_id := lineItem.original_item_id,
                        line_item_id := some itemId }
                    (change, { db with changes := db.changes ++ [change],
                                       nextId := db.nextId + 1 })
              let lid := change.line_item_id.getD itemId
              .ok { db1 with items := db1.items.map (fun i =>
                      if i.id == lid then { i with quantity := quantity } else i) }

/-- `OrderEditService.addLineItem`: guard that the edit is active; generate
and save a fresh line item owned by the edit; record an ITEM_ADD change
referencing it.  (Pricing/`generate` arguments, adjustment refresh and tax
line creation are collaborator concerns outside the tracked state.) -/
def addLineItem (db : DB) (orderEditId : String) (quantity : Nat) :
    Except MedusaError DB :=
  match retrieve db orderEditId with
  | .error err => .error err
  | .ok orderEdit =>
      if !(isOrderEditActive orderEdit) then
        .error ⟨.NOT_ALLOWED,
          "Can not add an item to the edit with status " ++
            (loadStatus orderEdit).toStr⟩
      else
        let lineItem : LineItem :=
          { id := "item_" ++ toString db.nextId,
            order_id := none, order_edit_id := some orderEditId,
            original_item_id := none, quantity := quantity }
        let change : ItemChange :=
          { id := "oic_" ++ toString (db.nextId + 1),
            type := .item_add,
            order_edit_id := orderEditId,
            original_line_item_id := none,
            line_item_id := some lineItem.id }
        .ok { db with items := db.items ++ [lineItem],
                      changes := db.changes ++ [change],
                      nextId := db.nextId + 2 }

/-- `OrderEditService.deleteItemChange`: throw `NOT_FOUND` when the change
does not exist, `InvalidData` when it belongs to another edit, `NOT_ALLOWED`
once `confirmed_at` or `canceled_at` is set; otherwise delete the change
row. -/
def deleteItemChange (db : DB) (orderEditId : String) (itemChangeId : String) :
    Except MedusaError DB :=
  match db.changes.find? (fun c => c.id == itemChangeId) with
  | none => .error ⟨.NOT_FOUND,
      "Item change with id " ++ itemChangeId ++ " was not found"⟩
  | some itemChange =>
      match retrieve db orderEditId with
      | .error err => .error err
      | .ok orderEdit =>
          if !(orderEdit.id == itemChange.order_edit_id) then
            .error ⟨.INVALID_DATA,
              "The item change you are trying to delete doesn't belong to the OrderEdit with id: " ++
                orderEditId ++ "."⟩
          else if orderEdit.confirmed_at.isSome || orderEdit.canceled_at.isSome then
            .error ⟨.NOT_ALLOWED,
              "Cannot delete and item change from a " ++
                (loadStatus orderEdit).toStr ++ " order edit"⟩
          else
            .ok { db with changes :=
                    db.changes.filter (fun c => !(c.id == itemChangeId)) }

end OrderEditService

/-- The lifecycle operations of spec section 4.3, as one step type. -/
inductive Op where
  | create (orderId : String) (note : Option String) (loggedInUserId : String)
  | delete (orderEditId : String)
  | decline (orderEditId : String) (reason : Option String)
      (loggedInUserId : Option String) (now : Nat)
  | requestConfirmation (orderEditId : String)
      (loggedInUserId : Option String) (now : Nat)
  | cancel (orderEditId : String) (loggedInUserId : Option String) (now : Nat)
  | confirm (orderEditId : String) (loggedInUserId : Option String) (now : Nat)
  | updateLineItem (orderEditId : String) (itemId : String) (quantity : Nat)
  | addLineItem (orderEditId : String) (quantity : Nat)
  | deleteItemChange (orderEditId : String) (itemChangeId : String)

/-- Run one operation against the state; a thrown error rolls the
transaction back, leaving the state unchanged. -/
def applyOp (db : DB) : Op → DB
  | .create orderId note uid =>
      match OrderEditService.create db orderId note uid with
      | .ok (_, db') => db'
      | .error _ => db
  | .delete orderEditId =>
      match OrderEditService.delete db orderEditId with
      | .ok db' => db'
      | .error _ => db
  | .decline orderEditId reason uid now =>
      match OrderEditService.decline db orderEditId reason uid now with
      | .ok (_, db') => db'
      | .error _ => db
  | .requestConfirmation orderEditId uid now =>
      match OrderEditService.requestConfirmation db orderEditId uid now with
      | .ok (_, db') => db'
      | .error _ => db
  | .cancel orderEditId uid now =>
      match OrderEditService.cancel db orderEditId uid now with
      | .ok (_, db') => db'
      | .error _ => db
  | .confirm orderEditId uid now =>
      match OrderEditService.confirm db orderEditId uid now with
      | .ok (_, db') => db'
      | .error _ => db
  | .updateLineItem orderEditId itemId q =>
      match OrderEditService.updateLineItem db orderEditId itemId q with
      | .ok db' => db'
      | .error _ => db
  | .addLineItem orderEditId q =>
      match OrderEditService.addLineItem db orderEditId q with
      | .ok db' => db'
      | .error _ => db
  | .deleteItemChange orderEditId itemChangeId =>
      match OrderEditService.deleteItemChange db orderEditId itemChangeId with
      | .ok db' => db'
      | .error _ => db

/-- Two `create` calls for the same order interleaved so that both
active-edit existence checks run before either insert commits — the schedule
the check-then-insert pattern admits when neither transaction's read sees the
other's uncommitted insert (spec section 5 notes the pattern alone does not
exclude it).  Each call inserts only when its own check passed. -/
def racingCreates (db : DB) (orderId : String) (note : Option String)
    (uid1 uid2 : String) : Option MedusaError × Option MedusaError × DB :=
  let c1 := OrderEditService.createActiveCheck db orderId
  let c2 := OrderEditService.createActiveCheck db orderId
  let db1 := match c1 with
    | none => (OrderEditService.createCommit db orderId note uid1).2
    | some _ => db
  let db2 := match c2 with
    | none => (OrderEditService.createCommit db1 orderId note uid2).2
    | some _ => db1
  (c1, c2, db2)

/-- One row of the idempotency ledger (`IdempotencyKey` model): key, the
recovery point ("started" initially, "finished" terminal), and the stored
response. -/
structure IdempotencyKeyRec where
  idempotency_key : String
  recovery_point : String := "started"
  response_code : Nat := 0
  response_body : String := ""
deriving DecidableEq, Repr

/-- Modelled from the spec: `IdempotencyKeyService.initializeRequest` (the
service itself is not in the sources; spec section 4.1): if a record exists
for the key, return it unchanged — otherwise create it with recovery_point
"started".  (Locking and the concurrent-creation race are out of scope of
the claims settled here.) -/
def initializeRequest (ledger : List IdempotencyKeyRec) (key : String) :
    IdempotencyKeyRec × List IdempotencyKeyRec :=
  match ledger.find? (fun k => k.idempotency_key == key) with
  | some k => (k, ledger)
  | none =>
      let k : IdempotencyKeyRec := { idempotency_key := key }
      (k, ledger ++ [k])

/-- What the "started" stage of `calculate-taxes.ts` produces when its body
runs: the cart retrieval plus tax decoration either yields a 200 response
with the decorated cart body, or the body throws. -/
inductive StageOutcome where
  | ok (response_code : Nat) (response_body : String)
  | thrown (err : String)
deriving DecidableEq, Repr

/-- Modelled from the spec: `IdempotencyKeyService.workStage` persistence
(spec section 4.1, the service is not in the sources): a stage returning a
response marks the record "finished" with that response; a stage that throws
transitions the record to terminal "finished" carrying a code-500 error
response. -/
def workStagePersist (k : IdempotencyKeyRec) (outcome : StageOutcome) :
    IdempotencyKeyRec :=
  match outcome with
  | .ok code body =>
      { k with recovery_point := "finished", response_code := code,
               response_body := body }
  | .thrown e =>
      { k with recovery_point := "finished", response_code := 500,
               response_body := e }

/-- Result of one call to the calculate-taxes route handler: the HTTP
response sent (`.ok (code, body)`) or the raw error thrown out of the
handler (`.error e`), the ledger afterwards, and how many times the
"started" stage body (cart retrieval and tax computation) actually ran. -/
structure RouteResult where
  response : Except String (Nat × String)
  ledger : List IdempotencyKeyRec
  stageRuns : Nat
deriving Repr

/-- The recovery-point loop of `calculate-taxes.ts`, entered at the record's
current recovery point, with the "started" stage body abstracted as
`outcome`.  "started": run the stage through `workStage`; on error set `err`
and leave the loop (the route later rethrows `err`), on success continue
into "finished".  "finished": leave the loop.  Any other recovery point:
persist "finished" with code 500 and a diagnostic body, then loop into
"finished".  Returns (final record, err, stage-body run count). -/
def runRecoveryLoop (k : IdempotencyKeyRec) (outcome : StageOutcome) :
    IdempotencyKeyRec × Option String × Nat :=
  if k.recovery_point == "finished" then (k, none, 0)
  else if k.recovery_point == "started" then
    match outcome with
    | .thrown e => (workStagePersist k (.thrown e), some e, 1)
    | .ok code body => (workStagePersist k (.ok code body), none, 1)
  else
    ({ k with recovery_point := "finished", response_code := 500,
              response_body := "Unknown recovery point" }, none, 0)

/-- Write the (possibly updated) record back into the ledger by key. -/
def saveIdempotencyKey (ledger : List IdempotencyKeyRec)
    (k : IdempotencyKeyRec) : List IdempotencyKeyRec :=
  ledger.map (fun x =>
    if x.idempotency_key == k.idempotency_key then k else x)

/-- One call to the calculate-taxes route handler: initialize (or load) the
idempotency record, run the recovery-point loop, then either rethrow the
stage error (`if (err) throw err`) or respond with the record's stored
response code and body. -/
def calculateTaxes (ledger : List IdempotencyKeyRec) (key : String)
    (outcome : StageOutcome) : RouteResult :=
  let (k0, ledger1) := initializeRequest ledger key
  let (k1, err, runs) := runRecoveryLoop k0 outcome
  let ledger2 := saveIdempotencyKey ledger1 k1
  match err with
  | some e => { response := .error e, ledger := ledger2, stageRuns := runs }
  | none =>
      { response := .ok (k1.response_code, k1.response_body),
        ledger := ledger2, stageRuns := runs }

end Medusa

namespace Medusa

/-- A successful `retrieve` is exactly a successful `find?` on the edit rows. -/
theorem retrieve_ok_iff_find? (db : DB) (orderEditId : String) (e : OrderEditRec) :
    OrderEditService.retrieve db orderEditId = .ok e ↔
      db.edits.find? (fun x => x.id == orderEditId) = some e := by
  unfold OrderEditService.retrieve
  rcases h : db.edits.find? (fun x => x.id == orderEditId) with _ | x <;>
    simp [h]

/-- `updateFirstBy` rewrites the row that `find?` locates: when `g` preserves
the id, the row found afterwards is `g` of the row found before. -/
theorem find?_updateFirstBy (l : List OrderEditRec) (editId : String)
    (g : OrderEditRec → OrderEditRec) (e : OrderEditRec)
    (hfind : l.find? (fun x => x.id == editId) = some e)
    (hid : (g e).id = e.id) :
    (updateFirstBy l editId g).find? (fun x => x.id == editId) = some (g e) := by
  induction l with
  | nil => simp at hfind
  | cons x xs ih =>
      rw [List.find?_cons] at hfind
      by_cases hx : (x.id == editId) = true
      · simp only [hx] at hfind
        injection hfind with hxe
        subst hxe
        rw [updateFirstBy, if_pos hx]
        have hgid : (g x).id = x.id := hid
        rw [List.find?_cons]
        simp [hgid, hx]
      · have hx' : (x.id == editId) = false := by simpa using hx
        simp only [hx'] at hfind
        rw [updateFirstBy, if_neg (by simp [hx'])]
        rw [List.find?_cons]
        simp only [hx']
        exact ih hfind

/-- Setting the quantity on the item with a given id rewrites exactly the row
`find?` locates. -/
theorem find?_map_setQuantity (items : List LineItem) (itemId : String)
    (q : Nat) (it : LineItem)
    (hfind : items.find? (fun i => i.id == itemId) = some it) :
    (items.map (fun i =>
        if i.id == itemId then { i with quantity := q } else i)).find?
      (fun i => i.id == itemId) = some { it with quantity := q } := by
  induction items with
  | nil => simp at hfind
  | cons x xs ih =>
      rw [List.find?_cons] at hfind
      by_cases hx : (x.id == itemId) = true
      · simp only [hx] at hfind
        injection hfind with hxe
        subst hxe
        simp only [List.map_cons, if_pos hx]
        rw [List.find?_cons]
        simp [hx]
      · have hx' : (x.id == itemId) = false := by simpa using hx
        simp only [hx'] at hfind
        simp only [List.map_cons, if_neg (by simp [hx'] : ¬(x.id == itemId) = true)]
        rw [List.find?_cons]
        simp only [hx']
        exact ih hfind

/-- After the two bulk updates of `confirm`, an item is owned by the order
exactly when it is one of the edit's items. -/
theorem confirm_handoff_mem (items : List LineItem) (orderEditId orderId : String) :
    ∀ i ∈ OrderEditService.attachEditItems
        (OrderEditService.detachOrderItems items orderId) orderEditId orderId,
      (i.order_id = some orderId ↔ i.order_edit_id = some orderEditId) := by
  intro i hi
  unfold OrderEditService.attachEditItems OrderEditService.detachOrderItems at hi
  rw [List.map_map, List.mem_map] at hi
  obtain ⟨j, _, rfl⟩ := hi
  by_cases hje : (j.order_edit_id == some orderEditId) = true
  · by_cases hjo : (j.order_id == some orderId) = true <;>
      simp_all [beq_iff_eq]
  · by_cases hjo : (j.order_id == some orderId) = true <;>
      simp_all [beq_iff_eq]

/-- C1: `loadStatus` is a pure function of the four timestamp fields with the
fixed precedence requested < declined < confirmed < canceled (each later
check overriding the earlier ones), `CREATED` when all four are null; setting
only `requested_at` yields `REQUESTED` and additionally setting
`confirmed_at` yields `CONFIRMED`. -/
theorem loadStatus_precedence_and_roundtrip :
    (∀ e : OrderEditRec,
      loadStatus e =
        if e.canceled_at.isSome then .canceled
        else if e.confirmed_at.isSome then .confirmed
        else if e.declined_at.isSome then .declined
        else if e.requested_at.isSome then .requested
        else .created) ∧
    (∀ (e : OrderEditRec) (t u : Nat),
      e.declined_at = none → e.confirmed_at = none → e.canceled_at = none →
      loadStatus { e with requested_at := some t } = .requested ∧
      loadStatus { e with requested_at := some t, confirmed_at := some u } =
        .confirmed) := by
  constructor
  · intro e
    unfold loadStatus
    rcases hc : e.canceled_at with _ | c <;>
      rcases hf : e.confirmed_at with _ | f <;>
        rcases hd : e.declined_at with _ | d <;>
          rcases hr : e.requested_at with _ | r <;> simp [hc, hf, hd, hr]
  · intro e t u hd hf hc
    unfold loadStatus
    simp [hd, hf, hc]

/-- Witness for C1: a concrete edit record run through the round-trip part. -/
theorem loadStatus_precedence_and_roundtrip_witness :
    loadStatus { id := "oe_0", order_id := "o1", created_by := "u1",
                 requested_at := some 5 : OrderEditRec } = .requested ∧
    loadStatus { id := "oe_0", order_id := "o1", created_by := "u1",
                 requested_at := some 5, confirmed_at := some 6 :
                 OrderEditRec } = .confirmed :=
  loadStatus_precedence_and_roundtrip.2
    { id := "oe_0", order_id := "o1", created_by := "u1" } 5 6 rfl rfl rfl

/-- C5: `requestConfirmation` fails with `InvalidData` on an edit with zero
change records; on an edit with at least one change and not yet requested it
succeeds, sets `requested_at`, and emits the requested event exactly once;
and a second call returns the edit unchanged (same `requested_at`), with the
state and the event log untouched. -/
theorem requestConfirmation_guards_and_idempotent
    (db : DB) (orderEditId : String) (uid uid2 : Option String)
    (now now2 : Nat) (e : OrderEditRec)
    (hret : OrderEditService.retrieve db orderEditId = .ok e) :
    (OrderEditService.changesOf db orderEditId = [] →
      OrderEditService.requestConfirmation db orderEditId uid now =
        .error ⟨.INVALID_DATA,
          "Cannot request a confirmation on an edit with no changes"⟩) ∧
    (OrderEditService.changesOf db orderEditId ≠ [] → e.requested_at = none →
      ∃ db' : DB,
        OrderEditService.requestConfirmation db orderEditId uid now =
          .ok ({ e with requested_at := some now, requested_by := uid }, db') ∧
        db'.events = db.events ++
          [(OrderEditService.Events.REQUESTED, orderEditId)] ∧
        OrderEditService.requestConfirmation db' orderEditId uid2 now2 =
          .ok ({ e with requested_at := some now, requested_by := uid }, db')) := by
  constructor
  · intro hch
    unfold OrderEditService.requestConfirmation
    rw [hret]
    simp [hch, List.isEmpty_iff]
  · intro hch hreq
    have hne : (OrderEditService.changesOf db orderEditId).isEmpty = false := by
      rcases h : OrderEditService.changesOf db orderEditId with _ | ⟨c, cs⟩
      · exact absurd h hch
      · rfl
    refine ⟨emit { db with edits := (updateFirstBy db.edits orderEditId
        (fun x => { x with requested_at := some now, requested_by := uid })) }
        OrderEditService.Events.REQUESTED orderEditId, ?_, ?_, ?_⟩
    · unfold OrderEditService.requestConfirmation
      rw [hret]
      simp [hne, hreq]
    · rfl
    · have hf : db.edits.find? (fun x => x.id == orderEditId) = some e :=
        (retrieve_ok_iff_find? db orderEditId e).mp hret
      have hf' :
          (updateFirstBy db.edits orderEditId
              (fun x => { x with requested_at := some now,
                                 requested_by := uid })).find?
            (fun x => x.id == orderEditId) =
          some { e with requested_at := some now, requested_by := uid } :=
        find?_updateFirstBy db.edits orderEditId _ e hf rfl
      unfold OrderEditService.requestConfirmation
      rw [show OrderEditService.retrieve
            (emit { db with edits := (updateFirstBy db.edits orderEditId
                      (fun x => { x with requested_at := some now,
                                         requested_by := uid })) }
              OrderEditService.Events.REQUESTED orderEditId) orderEditId =
          .ok { e with requested_at := some now, requested_by := uid } from
        (retrieve_ok_iff_find? _ _ _).mpr hf']
      have hc : ∃ x ∈ db.changes, x.order_edit_id = orderEditId := by
        have h2 := hch
        unfold OrderEditService.changesOf at h2
        rcases hl : db.changes.filter (fun x => x.order_edit_id == orderEditId)
          with _ | ⟨c, cs⟩
        · exact absurd hl h2
        · have hmem : c ∈ db.changes.filter
              (fun x => x.order_edit_id == orderEditId) := by
            rw [hl]; exact List.mem_cons_self c cs
          rcases List.mem_filter.mp hmem with ⟨h1, h3⟩
          exact ⟨c, h1, by simpa using h3⟩
      simp [hne, OrderEditService.changesOf, emit]
      exact hc

/-- Witness for C5: a concrete edit with one change, requested then
re-requested. -/
theorem requestConfirmation_guards_and_idempotent_witness :
    ∃ db' : DB,
      OrderEditService.requestConfirmation
        { edits := [{ id := "oe_1", order_id := "o1", created_by := "u1" }],
          changes := [{ id := "oic_1", type := .item_add,
                        order_edit_id := "oe_1",
                        line_item_id := some "item_1" }] : DB }
        "oe_1" (some "u2") 7 =
        .ok ({ id := "oe_1", order_id := "o1", created_by := "u1",
               requested_at := some 7, requested_by := some "u2" }, db') ∧
      db'.events = [] ++ [(OrderEditService.Events.REQUESTED, "oe_1")] ∧
      OrderEditService.requestConfirmation db' "oe_1" (some "u3") 9 =
        .ok ({ id := "oe_1", order_id := "o1", created_by := "u1",
               requested_at := some 7, requested_by := some "u2" }, db') :=
  (requestConfirmation_guards_and_idempotent
      { edits := [{ id := "oe_1", order_id := "o1", created_by := "u1" }],
        changes := [{ id := "oic_1", type := .item_add,
                      order_edit_id := "oe_1",
                      line_item_id := some "item_1" }] }
      "oe_1" (some "u2") (some "u3") 7 9
      { id := "oe_1", order_id := "o1", created_by := "u1" }
      (by rfl)).2 (by simp [OrderEditService.changesOf]) rfl

/-- C10: on an edit whose `requested_at` is already set but whose change
records have all been deleted, `requestConfirmation` throws `InvalidData`
instead of idempotently returning the edit, because the empty-changes check
runs before the already-requested early return. -/
theorem requestConfirmation_requested_but_no_changes
    (db : DB) (orderEditId : String) (uid : Option String) (now t : Nat)
    (e : OrderEditRec)
    (hret : OrderEditService.retrieve db orderEditId = .ok e)
    (_hreq : e.requested_at = some t)
    (hch : OrderEditService.changesOf db orderEditId = []) :
    OrderEditService.requestConfirmation db orderEditId uid now =
      .error ⟨.INVALID_DATA,
        "Cannot request a confirmation on an edit with no changes"⟩ := by
  unfold OrderEditService.requestConfirmation
  rw [hret]
  simp [hch, List.isEmpty_iff]

/-- Witness for C10: a concrete requested edit with zero changes. -/
theorem requestConfirmation_requested_but_no_changes_witness :
    OrderEditService.requestConfirmation
      { edits := [{ id := "oe_1", order_id := "o1", created_by := "u1",
                    requested_at := some 4 }] : DB } "oe_1" none 9 =
      .error ⟨.INVALID_DATA,
        "Cannot request a confirmation on an edit with no changes"⟩ :=
  requestConfirmation_requested_but_no_changes
    { edits := [{ id := "oe_1", order_id := "o1", created_by := "u1",
                  requested_at := some 4 }] } "oe_1" none 9 4
    { id := "oe_1", order_id := "o1", created_by := "u1",
      requested_at := some 4 }
    (by rfl) rfl (by rfl)

/-- On the success path (not canceled, declined or confirmed), `confirm`
returns the edit with the confirmed fields set and the state after the item
ownership handoff plus the CONFIRMED event. -/
theorem confirm_success_aux (db : DB) (orderEditId : String)
    (uid : Option String) (now : Nat) (e : OrderEditRec)
    (hret : OrderEditService.retrieve db orderEditId = .ok e)
    (hc : loadStatus e ≠ .canceled) (hd : loadStatus e ≠ .declined)
    (hf : loadStatus e ≠ .confirmed) :
    OrderEditService.confirm db orderEditId uid now =
      .ok ({ e with confirmed_at := some now, confirmed_by := uid },
        emit { db with
            items := (OrderEditService.attachEditItems
              (OrderEditService.detachOrderItems db.items e.order_id)
              orderEditId e.order_id),
            edits := (updateFirstBy db.edits orderEditId
              (fun x => { x with confirmed_at := some now,
                                 confirmed_by := uid })) }
          OrderEditService.Events.CONFIRMED orderEditId) := by
  unfold OrderEditService.confirm
  rw [hret]
  simp [hc, hd, hf]

/-- C3: `confirm` fails with `NotAllowed` when the status is CANCELED or
DECLINED, is idempotent on CONFIRMED (returns the edit with the state
untouched and no event), and on success — in one transaction, i.e. one step
of the model — detaches all of the order's live line items and reassigns the
edit's cloned items to the order, so that afterwards an item belongs to the
order exactly when it belongs to the edit; it sets `confirmed_at` and
appends the confirmed event exactly once. -/
theorem confirm_guards_handoff_event (db : DB) (orderEditId : String)
    (uid : Option String) (now : Nat) (e : OrderEditRec)
    (hret : OrderEditService.retrieve db orderEditId = .ok e) :
    ((loadStatus e = .canceled ∨ loadStatus e = .declined) →
      OrderEditService.confirm db orderEditId uid now =
        .error ⟨.NOT_ALLOWED,
          "Cannot confirm an order edit with status " ++ (loadStatus e).toStr⟩) ∧
    (loadStatus e = .confirmed →
      OrderEditService.confirm db orderEditId uid now = .ok (e, db)) ∧
    (loadStatus e ≠ .canceled → loadStatus e ≠ .declined →
     loadStatus e ≠ .confirmed →
      ∃ db' : DB,
        OrderEditService.confirm db orderEditId uid now =
          .ok ({ e with confirmed_at := some now, confirmed_by := uid }, db') ∧
        (∀ i ∈ db'.items,
          (i.order_id = some e.order_id ↔ i.order_edit_id = some orderEditId)) ∧
        db'.events = db.events ++
          [(OrderEditService.Events.CONFIRMED, orderEditId)]) := by
  refine ⟨?_, ?_, ?_⟩
  · intro h
    unfold OrderEditService.confirm
    rw [hret]
    rcases h with h | h <;> simp [h]
  · intro h
    unfold OrderEditService.confirm
    rw [hret]
    simp [h]
  · intro hc hd hf
    refine ⟨_, confirm_success_aux db orderEditId uid now e hret hc hd hf,
      ?_, ?_⟩
    · intro i hi
      exact confirm_handoff_mem db.items orderEditId e.order_id i hi
    · rfl

/-- Witness for C3: a concrete requested edit with one original order item
and one cloned edit item; confirming hands the item set over. -/
theorem confirm_guards_handoff_event_witness :
    ∃ db' : DB,
      OrderEditService.confirm
        { edits := [{ id := "oe_1", order_id := "o1", created_by := "u1",
                      requested_at := some 3 }],
          items := [{ id := "item_1", order_id := some "o1" },
                    { id := "item_2", order_edit_id := some "oe_1",
                      original_item_id := some "item_1" }] : DB }
        "oe_1" (some "u2") 8 =
        .ok ({ id := "oe_1", order_id := "o1", created_by := "u1",
               requested_at := some 3, confirmed_at := some 8,
               confirmed_by := some "u2" }, db') ∧
      (∀ i ∈ db'.items,
        (i.order_id = some "o1" ↔ i.order_edit_id = some "oe_1")) ∧
      db'.events = [] ++ [(OrderEditService.Events.CONFIRMED, "oe_1")] :=
  (confirm_guards_handoff_event
      { edits := [{ id := "oe_1", order_id := "o1", created_by := "u1",
                    requested_at := some 3 }],
        items := [{ id := "item_1", order_id := some "o1" },
                  { id := "item_2", order_edit_id := some "oe_1",
                    original_item_id := some "item_1" }] }
      "oe_1" (some "u2") 8
      { id := "oe_1", order_id := "o1", created_by := "u1",
        requested_at := some 3 }
      (by rfl)).2.2 (by decide) (by decide) (by decide)

/-- C9: on an edit whose four timestamps are all null (status CREATED, never
requested), `confirm` succeeds regardless of whether any change records
exist — the guard rejects only CANCELED and DECLINED — and performs the
item ownership handoff directly from CREATED. -/
theorem confirm_from_created_skips_request (db : DB) (orderEditId : String)
    (uid : Option String) (now : Nat) (e : OrderEditRec)
    (hret : OrderEditService.retrieve db orderEditId = .ok e)
    (hr : e.requested_at = none) (hd : e.declined_at = none)
    (hf : e.confirmed_at = none) (hx : e.canceled_at = none) :
    loadStatus e = .created ∧
    ∃ db' : DB,
      OrderEditService.confirm db orderEditId uid now =
        .ok ({ e with confirmed_at := some now, confirmed_by := uid }, db') ∧
      (∀ i ∈ db'.items,
        (i.order_id = some e.order_id ↔ i.order_edit_id = some orderEditId)) := by
  have hst : loadStatus e = .created := by
    unfold loadStatus
    simp [hr, hd, hf, hx]
  refine ⟨hst, _,
    confirm_success_aux db orderEditId uid now e hret
      (by simp [hst]) (by simp [hst]) (by simp [hst]), ?_⟩
  intro i hi
  exact confirm_handoff_mem db.items orderEditId e.order_id i hi

/-- Witness for C9: a concrete freshly created edit with zero change records
is confirmed directly. -/
theorem confirm_from_created_skips_request_witness :
    loadStatus { id := "oe_9", order_id := "o9", created_by := "u1" :
        OrderEditRec } = .created ∧
    ∃ db' : DB,
      OrderEditService.confirm
        { edits := [{ id := "oe_9", order_id := "o9", created_by := "u1" }],
          items := [{ id := "item_1", order_id := some "o9" }] : DB }
        "oe_9" none 2 =
        .ok ({ id := "oe_9", order_id := "o9", created_by := "u1",
               confirmed_at := some 2, confirmed_by := none }, db') ∧
      (∀ i ∈ db'.items,
        (i.order_id = some "o9" ↔ i.order_edit_id = some "oe_9")) :=
  confirm_from_created_skips_request
    { edits := [{ id := "oe_9", order_id := "o9", created_by := "u1" }],
      items := [{ id := "item_1", order_id := some "o9" }] }
    "oe_9" none 2
    { id := "oe_9", order_id := "o9", created_by := "u1" }
    (by rfl) rfl rfl rfl rfl

/-- `updateLineItem` when no change references the line item yet: an
ITEM_UPDATE change pointing at the original item id is created and the
quantity is applied to the line item. -/
theorem updateLineItem_create_branch (db : DB) (orderEditId itemId : String)
    (q : Nat) (e : OrderEditRec) (it : LineItem)
    (hret : OrderEditService.retrieve db orderEditId = .ok e)
    (hact : OrderEditService.isOrderEditActive e = true)
    (hitem : db.items.find? (fun i => i.id == itemId) = some it)
    (hbelong : it.order_edit_id = some orderEditId)
    (hno : (db.changes.filter
      (fun c => c.line_item_id == some itemId)).getLast? = none) :
    OrderEditService.updateLineItem db orderEditId itemId q =
      .ok { db with
              changes := db.changes ++
                [{ id := "oic_" ++ toString db.nextId, type := .item_update,
                   order_edit_id := orderEditId,
                   original_line_item_id := it.original_item_id,
                   line_item_id := some itemId }],
              nextId := db.nextId + 1,
              items := (db.items.map (fun i =>
                if i.id == itemId then { i with quantity := q } else i)) } := by
  unfold OrderEditService.updateLineItem
  rw [hret]
  simp only [hact, Bool.not_true, Bool.false_eq_true, if_false, hitem]
  have hb : (it.order_edit_id == some orderEditId) = true := by
    simp [hbelong]
  simp [hb, hno]

/-- `updateLineItem` when the most recent change already references the line
item: the change is reused (none is created) and the quantity is applied to
the change's line item. -/
theorem updateLineItem_reuse_branch (db : DB) (orderEditId itemId : String)
    (q : Nat) (e : OrderEditRec) (it : LineItem) (c : ItemChange)
    (hret : OrderEditService.retrieve db orderEditId = .ok e)
    (hact : OrderEditService.isOrderEditActive e = true)
    (hitem : db.items.find? (fun i => i.id == itemId) = some it)
    (hbelong : it.order_edit_id = some orderEditId)
    (hfound : (db.changes.filter
      (fun ch => ch.line_item_id == some itemId)).getLast? = some c)
    (hcl : c.line_item_id = some itemId) :
    OrderEditService.updateLineItem db orderEditId itemId q =
      .ok { db with
              items := (db.items.map (fun i =>
                if i.id == itemId then { i with quantity := q } else i)) } := by
  unfold OrderEditService.updateLineItem
  rw [hret]
  simp only [hact, Bool.not_true, Bool.false_eq_true, if_false, hitem]
  have hb : (it.order_edit_id == some orderEditId) = true := by
    simp [hbelong]
  simp [hb, hfound, hcl]

/-- C4: on an active edit, calling `updateLineItem` twice on the same cloned
item creates exactly one ITEM_UPDATE change record: the first call, finding
no change for the item, creates one referencing the original item id; the
second call reuses the most recent change referencing the item instead of
creating another, and its quantity overwrites the first call's quantity on
the change's line item. -/
theorem updateLineItem_twice_one_change (db : DB) (orderEditId itemId : String)
    (q1 q2 : Nat) (e : OrderEditRec) (it : LineItem)
    (hret : OrderEditService.retrieve db orderEditId = .ok e)
    (hact : OrderEditService.isOrderEditActive e = true)
    (hitem : db.items.find? (fun i => i.id == itemId) = some it)
    (hbelong : it.order_edit_id = some orderEditId)
    (hno : db.changes.filter (fun c => c.line_item_id == some itemId) = []) :
    ∃ db1 db2 : DB,
      OrderEditService.updateLineItem db orderEditId itemId q1 = .ok db1 ∧
      db1.changes.filter (fun c => c.line_item_id == some itemId) =
        [{ id := "oic_" ++ toString db.nextId, type := .item_update,
           order_edit_id := orderEditId,
           original_line_item_id := it.original_item_id,
           line_item_id := some itemId }] ∧
      (db1.items.find? (fun i => i.id == itemId)).map LineItem.quantity =
        some q1 ∧
      OrderEditService.updateLineItem db1 orderEditId itemId q2 = .ok db2 ∧
      db2.changes = db1.changes ∧
      (db2.items.find? (fun i => i.id == itemId)).map LineItem.quantity =
        some q2 := by
  have hc : (ItemChange.mk ("oic_" ++ toString db.nextId) .item_update
      orderEditId it.original_item_id (some itemId)).line_item_id =
      some itemId := rfl
  have h1 := updateLineItem_create_branch db orderEditId itemId q1 e it hret
    hact hitem hbelong (by rw [hno]; rfl)
  have h2 := updateLineItem_reuse_branch
    { db with
        changes := (db.changes ++ [ItemChange.mk ("oic_" ++ toString db.nextId)
          .item_update orderEditId it.original_item_id (some itemId)]),
        nextId := db.nextId + 1,
        items := (db.items.map (fun i =>
          if i.id == itemId then { i with quantity := q1 } else i)) }
    orderEditId itemId q2 e { it with quantity := q1 }
    (ItemChange.mk ("oic_" ++ toString db.nextId) .item_update
      orderEditId it.original_item_id (some itemId))
    ((retrieve_ok_iff_find? _ _ _).mpr
      ((retrieve_ok_iff_find? db orderEditId e).mp hret))
    hact
    (find?_map_setQuantity db.items itemId q1 it hitem)
    hbelong
    (by simp [List.filter_append, hno])
    hc
  refine ⟨_, _, h1, ?_, ?_, h2, rfl, ?_⟩
  · simp [List.filter_append, hno]
  · rw [find?_map_setQuantity db.items itemId q1 it hitem]
    rfl
  · rw [find?_map_setQuantity _ itemId q2 { it with quantity := q1 }
      (find?_map_setQuantity db.items itemId q1 it hitem)]
    rfl

/-- Witness for C4: a concrete active edit with one cloned item, updated to
quantity 3 and then 5. -/
theorem updateLineItem_twice_one_change_witness :
    ∃ db1 db2 : DB,
      OrderEditService.updateLineItem
        { edits := [{ id := "oe_1", order_id := "o1", created_by := "u1" }],
          items := [{ id := "item_2", order_edit_id := some "oe_1",
                      original_item_id := some "item_1", quantity := 2 }],
          nextId := 7 : DB } "oe_1" "item_2" 3 = .ok db1 ∧
      db1.changes.filter (fun c => c.line_item_id == some "item_2") =
        [{ id := "oic_" ++ toString 7, type := .item_update,
           order_edit_id := "oe_1", original_line_item_id := some "item_1",
           line_item_id := some "item_2" }] ∧
      (db1.items.find? (fun i => i.id == "item_2")).map LineItem.quantity =
        some 3 ∧
      OrderEditService.updateLineItem db1 "oe_1" "item_2" 5 = .ok db2 ∧
      db2.changes = db1.changes ∧
      (db2.items.find? (fun i => i.id == "item_2")).map LineItem.quantity =
        some 5 :=
  updateLineItem_twice_one_change
    { edits := [{ id := "oe_1", order_id := "o1", created_by := "u1" }],
      items := [{ id := "item_2", order_edit_id := some "oe_1",
                  original_item_id := some "item_1", quantity := 2 }],
      nextId := 7 } "oe_1" "item_2" 3 5
    { id := "oe_1", order_id := "o1", created_by := "u1" }
    { id := "item_2", order_edit_id := some "oe_1",
      original_item_id := some "item_1", quantity := 2 }
    (by rfl) (by rfl) (by rfl) rfl (by rfl)

/-- Saving one row through `updateFirstBy` cannot increase the number of rows
matched by a predicate the row update does not newly satisfy. -/
theorem filter_length_updateFirstBy_le (p : OrderEditRec → Bool)
    (g : OrderEditRec → OrderEditRec)
    (h : ∀ x, p (g x) = true → p x = true) :
    ∀ (l : List OrderEditRec) (editId : String),
      ((updateFirstBy l editId g).filter p).length ≤ (l.filter p).length := by
  intro l editId
  induction l with
  | nil => simp [updateFirstBy]
  | cons x xs ih =>
      rw [updateFirstBy]
      by_cases hx : (x.id == editId) = true
      · rw [if_pos hx, List.filter_cons, List.filter_cons]
        by_cases hpg : p (g x) = true
        · rw [if_pos hpg, if_pos (h x hpg)]
          simp
        · rw [if_neg hpg]
          by_cases hpx : p x = true
          · rw [if_pos hpx]
            simp [Nat.le_succ]
          · rw [if_neg hpx]
      · rw [if_neg hx, List.filter_cons, List.filter_cons]
        by_cases hpx : p x = true
        · rw [if_pos hpx, if_pos hpx]
          simpa using ih
        · rw [if_neg hpx, if_neg hpx]
          exact ih

/-- A state with the same edit rows has the same active-edit counts. -/
theorem atMostOneActive_of_edits_eq (db db' : DB) (he : db'.edits = db.edits)
    (hinv : atMostOneActive db) : atMostOneActive db' := by
  intro oid
  unfold activeEditsFor
  rw [he]
  exact hinv oid

/-- Removing edit rows preserves the invariant. -/
theorem atMostOneActive_of_edits_filter (db db' : DB)
    (q : OrderEditRec → Bool) (he : db'.edits = db.edits.filter q)
    (hinv : atMostOneActive db) : atMostOneActive db' := by
  intro oid
  unfold activeEditsFor
  rw [he]
  exact le_trans
    ((List.Sublist.filter _ (List.filter_sublist db.edits)).length_le)
    (hinv oid)

/-- Saving one row whose update never turns an inactive edit active (nor
moves it to another order) preserves the invariant. -/
theorem atMostOneActive_of_edits_updateFirstBy (db db' : DB) (editId : String)
    (g : OrderEditRec → OrderEditRec)
    (he : db'.edits = updateFirstBy db.edits editId g)
    (hg : ∀ x oid, (((g x).order_id == oid) && isActiveEdit (g x)) = true →
      ((x.order_id == oid) && isActiveEdit x) = true)
    (hinv : atMostOneActive db) : atMostOneActive db' := by
  intro oid
  unfold activeEditsFor
  rw [he]
  exact le_trans
    (filter_length_updateFirstBy_le _ g (fun x => hg x oid) db.edits editId)
    (hinv oid)

/-- The edit rows after the insert half of `create` are the old ones plus
the freshly created edit. -/
theorem createCommit_snd_edits (db : DB) (orderId : String)
    (note : Option String) (uid : String) :
    ((OrderEditService.createCommit db orderId note uid).2).edits =
      db.edits ++ [{ id := "oe_" ++ toString db.nextId, order_id := orderId,
                     internal_note := note, created_by := uid }] := rfl

/-- When no active edit exists for the order, committing a fresh edit keeps
at most one active edit per order. -/
theorem createCommit_preserves (db : DB) (orderId : String)
    (note : Option String) (uid : String)
    (hchk : OrderEditService.retrieveActive db orderId = none)
    (hinv : atMostOneActive db) :
    atMostOneActive ((OrderEditService.createCommit db orderId note uid).2) := by
  intro oid
  unfold activeEditsFor
  rw [createCommit_snd_edits, List.filter_append]
  have hnone := List.find?_eq_none.mp hchk
  by_cases h : orderId = oid
  · subst h
    have hnil : db.edits.filter
        (fun e => e.order_id == orderId && isActiveEdit e) = [] :=
      List.filter_eq_nil_iff.mpr (fun a ha => by simpa using hnone a ha)
    rw [hnil]
    simp [isActiveEdit]
  · have hne : (orderId == oid) = false := by
      simpa using h
    simpa [activeEditsFor, isActiveEdit, hne] using hinv oid

/-- `decline` preserves the invariant on success. -/
theorem decline_ok_preserves (db : DB) (orderEditId : String)
    (reason uid : Option String) (now : Nat) (pr : OrderEditRec) (db' : DB)
    (heq : OrderEditService.decline db orderEditId reason uid now =
      .ok (pr, db'))
    (hinv : atMostOneActive db) : atMostOneActive db' := by
  unfold OrderEditService.decline at heq
  repeat' split at heq
  · cases heq
  · cases heq
    exact hinv
  · cases heq
  · cases heq
    exact atMostOneActive_of_edits_updateFirstBy db _ orderEditId _ rfl
      (fun x oid hx => by simp [isActiveEdit] at hx) hinv

/-- `cancel` preserves the invariant on success. -/
theorem cancel_ok_preserves (db : DB) (orderEditId : String)
    (uid : Option String) (now : Nat) (pr : OrderEditRec) (db' : DB)
    (heq : OrderEditService.cancel db orderEditId uid now = .ok (pr, db'))
    (hinv : atMostOneActive db) : atMostOneActive db' := by
  unfold OrderEditService.cancel at heq
  repeat' split at heq
  · cases heq
  · cases heq
    exact hinv
  · cases heq
  · cases heq
    exact atMostOneActive_of_edits_updateFirstBy db _ orderEditId _ rfl
      (fun x oid hx => by simp [isActiveEdit] at hx) hinv

/-- `confirm` preserves the invariant on success. -/
theorem confirm_ok_preserves (db : DB) (orderEditId : String)
    (uid : Option String) (now : Nat) (pr : OrderEditRec) (db' : DB)
    (heq : OrderEditService.confirm db orderEditId uid now = .ok (pr, db'))
    (hinv : atMostOneActive db) : atMostOneActive db' := by
  unfold OrderEditService.confirm at heq
  repeat' split at heq
  · cases heq
  · cases heq
  · cases heq
    exact hinv
  · cases heq
    exact atMostOneActive_of_edits_updateFirstBy db _ orderEditId _ rfl
      (fun x oid hx => by simp [isActiveEdit] at hx) hinv

/-- `requestConfirmation` preserves the invariant on success (setting
`requested_at` does not change which edits are active). -/
theorem requestConfirmation_ok_preserves (db : DB) (orderEditId : String)
    (uid : Option String) (now : Nat) (pr : OrderEditRec) (db' : DB)
    (heq : OrderEditService.requestConfirmation db orderEditId uid now =
      .ok (pr, db'))
    (hinv : atMostOneActive db) : atMostOneActive db' := by
  unfold OrderEditService.requestConfirmation at heq
  repeat' split at heq
  · cases heq
  · cases heq
  · cases heq
    exact hinv
  · cases heq
    exact atMostOneActive_of_edits_updateFirstBy db _ orderEditId _ rfl
      (fun x oid hx => by simpa [isActiveEdit] using hx) hinv

/-- `delete` preserves the invariant on success. -/
theorem delete_ok_preserves (db : DB) (orderEditId : String) (db' : DB)
    (heq : OrderEditService.delete db orderEditId = .ok db')
    (hinv : atMostOneActive db) : atMostOneActive db' := by
  unfold OrderEditService.delete at heq
  repeat' split at heq
  · cases heq
    exact hinv
  · cases heq
  · cases heq
    exact atMostOneActive_of_edits_filter db _ _ rfl hinv

/-- `updateLineItem` never touches the edit rows. -/
theorem updateLineItem_ok_edits (db : DB) (orderEditId itemId : String)
    (q : Nat) (db' : DB)
    (heq : OrderEditService.updateLineItem db orderEditId itemId q = .ok db') :
    db'.edits = db.edits := by
  unfold OrderEditService.updateLineItem at heq
  split at heq
  · cases heq
  · split at heq
    · cases heq
    · split at heq
      · cases heq
      · split at heq
        · cases heq
        · rcases hf : (List.filter (fun c => c.line_item_id == some itemId)
              db.changes).getLast? with _ | c
          · rw [hf] at heq
            cases heq
            rfl
          · rw [hf] at heq
            cases heq
            rfl

/-- `addLineItem` never touches the edit rows. -/
theorem addLineItem_ok_edits (db : DB) (orderEditId : String) (q : Nat)
    (db' : DB)
    (heq : OrderEditService.addLineItem db orderEditId q = .ok db') :
    db'.edits = db.edits := by
  unfold OrderEditService.addLineItem at heq
  repeat' split at heq
  all_goals cases heq
  all_goals rfl

/-- `deleteItemChange` never touches the edit rows. -/
theorem deleteItemChange_ok_edits (db : DB) (orderEditId itemChangeId : String)
    (db' : DB)
    (heq : OrderEditService.deleteItemChange db orderEditId itemChangeId =
      .ok db') :
    db'.edits = db.edits := by
  unfold OrderEditService.deleteItemChange at heq
  repeat' split at heq
  all_goals cases heq
  all_goals rfl

/-- C2: for every order, at most one active edit (all of `confirmed_at`,
`canceled_at`, `declined_at` null) exists at any time — every lifecycle
operation of the service preserves the invariant — and `create` throws
`InvalidData` and creates nothing when an active edit already exists for the
order. -/
theorem active_edit_invariant (db : DB) (op : Op) (orderId : String)
    (note : Option String) (uid : String)
    (hinv : atMostOneActive db) :
    atMostOneActive (applyOp db op) ∧
    ((OrderEditService.retrieveActive db orderId).isSome = true →
      OrderEditService.create db orderId note uid =
        .error ⟨.INVALID_DATA,
          "An active order edit already exists for the order " ++ orderId⟩ ∧
      applyOp db (.create orderId note uid) = db) := by
  constructor
  · cases op with
    | create orderId' note' uid' =>
        simp only [applyOp]
        split
        · next pr db' heq =>
            unfold OrderEditService.create at heq
            split at heq
            · cases heq
            · next hchk =>
                cases heq
                unfold OrderEditService.createActiveCheck at hchk
                split at hchk
                · cases hchk
                · next hact =>
                    exact createCommit_preserves db orderId' note' uid'
                      hact hinv
        · exact hinv
    | delete orderEditId =>
        simp only [applyOp]
        split
        · next db' heq => exact delete_ok_preserves db orderEditId db' heq hinv
        · exact hinv
    | decline orderEditId reason uid' now =>
        simp only [applyOp]
        split
        · next pr db' heq =>
            exact decline_ok_preserves db orderEditId reason uid' now pr db'
              heq hinv
        · exact hinv
    | requestConfirmation orderEditId uid' now =>
        simp only [applyOp]
        split
        · next pr db' heq =>
            exact requestConfirmation_ok_preserves db orderEditId uid' now pr
              db' heq hinv
        · exact hinv
    | cancel orderEditId uid' now =>
        simp only [applyOp]
        split
        · next pr db' heq =>
            exact cancel_ok_preserves db orderEditId uid' now pr db' heq hinv
        · exact hinv
    | confirm orderEditId uid' now =>
        simp only [applyOp]
        split
        · next pr db' heq =>
            exact confirm_ok_preserves db orderEditId uid' now pr db' heq hinv
        · exact hinv
    | updateLineItem orderEditId itemId q =>
        simp only [applyOp]
        split
        · next db' heq =>
            exact atMostOneActive_of_edits_eq db db'
              (updateLineItem_ok_edits db orderEditId itemId q db' heq) hinv
        · exact hinv
    | addLineItem orderEditId q =>
        simp only [applyOp]
        split
        · next db' heq =>
            exact atMostOneActive_of_edits_eq db db'
              (addLineItem_ok_edits db orderEditId q db' heq) hinv
        · exact hinv
    | deleteItemChange orderEditId itemChangeId =>
        simp only [applyOp]
        split
        · next db' heq =>
            exact atMostOneActive_of_edits_eq db db'
              (deleteItemChange_ok_edits db orderEditId itemChangeId db' heq)
              hinv
        · exact hinv
  · intro hsome
    have herr : OrderEditService.create db orderId note uid =
        .error ⟨.INVALID_DATA,
          "An active order edit already exists for the order " ++ orderId⟩ := by
      unfold OrderEditService.create OrderEditService.createActiveCheck
      rcases h : OrderEditService.retrieveActive db orderId with _ | e
      · rw [h] at hsome
        cases hsome
      · rfl
    refine ⟨herr, ?_⟩
    simp only [applyOp]
    rw [herr]

/-- Witness for C2: the invariant holds after creating an edit on an empty
state, and a second create against a state that already holds an active edit
fails with `InvalidData` and changes nothing. -/
theorem active_edit_invariant_witness :
    atMostOneActive (applyOp {} (.create "o1" none "u1")) ∧
    ((OrderEditService.retrieveActive
        { edits := [{ id := "oe_0", order_id := "o1", created_by := "u1" }] :
          DB } "o1").isSome = true →
      OrderEditService.create
        { edits := [{ id := "oe_0", order_id := "o1", created_by := "u1" }] }
        "o1" none "u2" =
        .error ⟨.INVALID_DATA,
          "An active order edit already exists for the order " ++ "o1"⟩ ∧
      applyOp { edits := [{ id := "oe_0", order_id := "o1",
                            created_by := "u1" }] }
          (.create "o1" none "u2") =
        { edits := [{ id := "oe_0", order_id := "o1", created_by := "u1" }] }) :=
  ⟨(active_edit_invariant {} (.create "o1" none "u1") "o1" none "u1"
      (fun oid => by simp [activeEditsFor])).1,
   (active_edit_invariant
      { edits := [{ id := "oe_0", order_id := "o1", created_by := "u1" }] }
      (.create "o1" none "u2") "o1" none "u2"
      (fun oid => by
        simp only [activeEditsFor, List.filter]
        split <;> simp)).2⟩

/-- Writing back a record whose key does not occur in the ledger leaves the
ledger unchanged. -/
theorem saveIdempotencyKey_of_absent (ledger : List IdempotencyKeyRec)
    (k : IdempotencyKeyRec)
    (h : ledger.find? (fun r => r.idempotency_key == k.idempotency_key) =
      none) :
    saveIdempotencyKey ledger k = ledger := by
  unfold saveIdempotencyKey
  induction ledger with
  | nil => rfl
  | cons x xs ih =>
      rw [List.find?_cons] at h
      by_cases hx : (x.idempotency_key == k.idempotency_key) = true
      · simp [hx] at h
      · have hx' : (x.idempotency_key == k.idempotency_key) = false := by
          simpa using hx
        simp only [hx'] at h
        simp only [List.map_cons, if_neg (by simp [hx'] :
          ¬(x.idempotency_key == k.idempotency_key) = true)]
        rw [ih h]

/-- C6: for every idempotency key whose stored record has recovery point
"finished", a retried call with the same key returns the stored
`response_code`/`response_body` unchanged and runs the "started" stage body
(cart retrieval and tax computation) zero times. -/
theorem finished_record_replayed_without_side_effects
    (ledger : List IdempotencyKeyRec) (key : String)
    (k : IdempotencyKeyRec) (outcome : StageOutcome)
    (hfind : ledger.find? (fun r => r.idempotency_key == key) = some k)
    (hfin : k.recovery_point = "finished") :
    (calculateTaxes ledger key outcome).response =
      .ok (k.response_code, k.response_body) ∧
    (calculateTaxes ledger key outcome).stageRuns = 0 := by
  unfold calculateTaxes initializeRequest runRecoveryLoop
  rw [hfind]
  simp [hfin]

/-- Witness for C6: a concrete finished record is replayed verbatim with the
stage body never run. -/
theorem finished_record_replayed_without_side_effects_witness :
    (calculateTaxes
      [{ idempotency_key := "ik_1", recovery_point := "finished",
         response_code := 200, response_body := "cart body" }]
      "ik_1" (.thrown "would fail")).response = .ok (200, "cart body") ∧
    (calculateTaxes
      [{ idempotency_key := "ik_1", recovery_point := "finished",
         response_code := 200, response_body := "cart body" }]
      "ik_1" (.thrown "would fail")).stageRuns = 0 :=
  finished_record_replayed_without_side_effects
    [{ idempotency_key := "ik_1", recovery_point := "finished",
       response_code := 200, response_body := "cart body" }] "ik_1"
    { idempotency_key := "ik_1", recovery_point := "finished",
      response_code := 200, response_body := "cart body" }
    (.thrown "would fail") (by rfl) rfl

/-- Counterexample for C7: with a fresh key and a stage body that throws,
the route's first call propagates the raw error out of the handler
(`if (err) throw err`) instead of returning the persisted well-formed
code-500 response. -/
theorem stage_error_first_call_propagates_raw_error :
    (calculateTaxes [] "ik_1" (.thrown "tax provider down")).response =
      .error "tax provider down" := rfl

/-- C7 (amended): when the stage handler reports an error, the record is
persisted as terminal "finished" with code 500 and the error payload, and a
retried call with the same key receives that stored well-formed response
without the failing stage running again — but the first failing call itself
propagates the raw error up the call stack. -/
theorem stage_error_persisted_finished_500 (ledger : List IdempotencyKeyRec)
    (key e : String)
    (hnew : ledger.find? (fun r => r.idempotency_key == key) = none) :
    (calculateTaxes ledger key (.thrown e)).response = .error e ∧
    (calculateTaxes ledger key (.thrown e)).ledger =
      ledger ++
        [{ idempotency_key := key, recovery_point := "finished",
           response_code := 500, response_body := e }] ∧
    (∀ outcome2 : StageOutcome,
      (calculateTaxes
        (ledger ++
          [{ idempotency_key := key, recovery_point := "finished",
             response_code := 500, response_body := e }])
        key outcome2).response = .ok (500, e) ∧
      (calculateTaxes
        (ledger ++
          [{ idempotency_key := key, recovery_point := "finished",
             response_code := 500, response_body := e }])
        key outcome2).stageRuns = 0) := by
  have hsave :
      saveIdempotencyKey
        (ledger ++ [{ idempotency_key := key : IdempotencyKeyRec }])
        { idempotency_key := key, recovery_point := "finished",
          response_code := 500, response_body := e } =
      ledger ++
        [{ idempotency_key := key, recovery_point := "finished",
           response_code := 500, response_body := e }] := by
    unfold saveIdempotencyKey
    rw [List.map_append]
    have h1 :
        saveIdempotencyKey ledger
          { idempotency_key := key, recovery_point := "finished",
            response_code := 500, response_body := e } = ledger :=
      saveIdempotencyKey_of_absent ledger _ hnew
    unfold saveIdempotencyKey at h1
    rw [h1]
    simp
  refine ⟨?_, ?_, ?_⟩
  · unfold calculateTaxes initializeRequest runRecoveryLoop
    rw [hnew]
    rfl
  · unfold calculateTaxes initializeRequest runRecoveryLoop
    rw [hnew]
    exact hsave
  · intro outcome2
    have hfind2 :
        (ledger ++
          [{ idempotency_key := key, recovery_point := "finished",
             response_code := 500, response_body := e :
             IdempotencyKeyRec }]).find?
          (fun r => r.idempotency_key == key) =
        some
          { idempotency_key := key, recovery_point := "finished",
            response_code := 500, response_body := e } := by
      rw [List.find?_append, hnew]
      simp
    unfold calculateTaxes initializeRequest runRecoveryLoop
    rw [hfind2]
    exact ⟨rfl, rfl⟩

/-- Witness for C7's amended theorem: fresh key "ik_1", stage error "boom";
the record is persisted finished/500 and the retry replays it. -/
theorem stage_error_persisted_finished_500_witness :
    (calculateTaxes [] "ik_1" (.thrown "boom")).response = .error "boom" ∧
    (calculateTaxes [] "ik_1" (.thrown "boom")).ledger =
      [] ++
        [{ idempotency_key := "ik_1", recovery_point := "finished",
           response_code := 500, response_body := "boom" }] ∧
    (∀ outcome2 : StageOutcome,
      (calculateTaxes
        ([] ++
          [{ idempotency_key := "ik_1", recovery_point := "finished",
             response_code := 500, response_body := "boom" }])
        "ik_1" outcome2).response = .ok (500, "boom") ∧
      (calculateTaxes
        ([] ++
          [{ idempotency_key := "ik_1", recovery_point := "finished",
             response_code := 500, response_body := "boom" }])
        "ik_1" outcome2).stageRuns = 0) :=
  stage_error_persisted_finished_500 [] "ik_1" "boom" rfl

/-- Counterexample for C8: on an empty state, the interleaving of two
`create` calls for order "o1" in which both active-edit checks run before
either insert lets both calls pass the check, leaving two active edits for
the order. -/
theorem create_race_counterexample :
    (racingCreates {} "o1" none "u1" "u2").1 = none ∧
    (racingCreates {} "o1" none "u1" "u2").2.1 = none ∧
    (activeEditsFor (racingCreates {} "o1" none "u1" "u2").2.2 "o1").length =
      2 := ⟨rfl, rfl, rfl⟩

/-- C8 (amended): when the two `create` calls are serialized, the second
fails with `InvalidData` and creates nothing; but in the interleaving where
both active-edit checks read the state before either insert commits — which
the check-then-insert implementation admits — both calls pass the check and
two new active edits are inserted for the order. -/
theorem create_race_amended (db : DB) (orderId : String)
    (note : Option String) (u1 u2 : String) (e1 : OrderEditRec) (db1 : DB)
    (hfirst : OrderEditService.create db orderId note u1 = .ok (e1, db1)) :
    (OrderEditService.create db1 orderId note u2 =
      .error ⟨.INVALID_DATA,
        "An active order edit already exists for the order " ++ orderId⟩ ∧
     applyOp db1 (.create orderId note u2) = db1) ∧
    ((racingCreates db orderId note u1 u2).1 = none ∧
     (racingCreates db orderId note u1 u2).2.1 = none ∧
     (activeEditsFor (racingCreates db orderId note u1 u2).2.2 orderId).length
       = (activeEditsFor db orderId).length + 2) := by
  unfold OrderEditService.create at hfirst
  rcases hchk : OrderEditService.createActiveCheck db orderId with _ | err
  · rw [hchk] at hfirst
    have hpair := Except.ok.inj hfirst
    have hdb1 : db1 = (OrderEditService.createCommit db orderId note u1).2 := by
      rw [hpair]
    subst hdb1
    have hnone : OrderEditService.retrieveActive db orderId = none := by
      unfold OrderEditService.createActiveCheck at hchk
      rcases h : OrderEditService.retrieveActive db orderId with _ | x
      · rfl
      · rw [h] at hchk
        cases hchk
    have hfind := List.find?_eq_none.mp hnone
    have hfind2 : OrderEditService.retrieveActive
        ((OrderEditService.createCommit db orderId note u1).2) orderId =
        some { id := "oe_" ++ toString db.nextId, order_id := orderId,
               internal_note := note, created_by := u1 } := by
      unfold OrderEditService.retrieveActive
      rw [createCommit_snd_edits, List.find?_append]
      rw [show List.find? (fun e => e.order_id == orderId && isActiveEdit e)
            db.edits = none from hnone]
      simp [isActiveEdit]
    have herr2 : OrderEditService.create
        ((OrderEditService.createCommit db orderId note u1).2) orderId note u2
        = .error ⟨.INVALID_DATA,
            "An active order edit already exists for the order " ++
              orderId⟩ := by
      unfold OrderEditService.create OrderEditService.createActiveCheck
      rw [hfind2]
    constructor
    · constructor
      · exact herr2
      · simp only [applyOp]
        rw [herr2]
    · refine ⟨?_, ?_, ?_⟩
      · unfold racingCreates
        rw [hchk]
      · unfold racingCreates
        rw [hchk]
      · unfold racingCreates
        rw [hchk]
        unfold activeEditsFor
        rw [createCommit_snd_edits, createCommit_snd_edits,
          List.filter_append, List.filter_append]
        simp [isActiveEdit]
  · rw [hchk] at hfirst
    cases hfirst

/-- Witness for C8's amended theorem: two creates for order "o1" on an empty
state. -/
theorem create_race_amended_witness :
    (OrderEditService.create (applyOp {} (.create "o1" none "u1")) "o1" none
        "u2" =
      .error ⟨.INVALID_DATA,
        "An active order edit already exists for the order " ++ "o1"⟩ ∧
     applyOp (applyOp {} (.create "o1" none "u1")) (.create "o1" none "u2") =
       applyOp {} (.create "o1" none "u1")) ∧
    ((racingCreates {} "o1" none "u1" "u2").1 = none ∧
     (racingCreates {} "o1" none "u1" "u2").2.1 = none ∧
     (activeEditsFor (racingCreates {} "o1" none "u1" "u2").2.2 "o1").length =
       (activeEditsFor {} "o1").length + 2) :=
  create_race_amended {} "o1" none "u1" "u2"
    { id := "oe_" ++ toString 0, order_id := "o1", created_by := "u1" }
    (applyOp {} (.create "o1" none "u1")) (by rfl)

end Medusa
